import Mathlib

/-!
Shallow embedding of the AppFlowy workspace view-hierarchy manager
(`frontend/rust-lib/flowy-folder/src/manager.rs` and
`frontend/rust-lib/flowy-folder/src/entities/view.rs`).

The manager operates on a shared, optionally-absent `Folder` (the
`ArcSwapOption<RwLock<Folder>>`); here every operation is a pure function
taking the optional folder and returning the result together with the new
state and the list of emitted notifications / external-handler calls.
The `Folder` itself lives in the external `collab_folder` crate; its
primitives (`get_view`, `get_views_belong_to`, `insert_view`, `move_view`,
`delete_views`, section add/delete) are modelled from how `manager.rs`
uses them and from the spec's interface description.  Layout operation
handlers are external content engines; the model treats a handler as
registered for every layout (the application registers all of them at
startup) and records handler invocations as events.  Error payloads
(message strings) and cloud-sync side channels are elided.  The model is
for a non-Guest user: the Guest-only early-access check of `get_view_pb`
is not taken for such users.
-/

/-- View layout variants (`collab_folder::ViewLayout`). -/
inductive ViewLayout
  | Document
  | Grid
  | Board
  | Calendar
  | Chat
deriving DecidableEq

/-- A view node (`collab_folder::View`): identity, parent link, ordered
child ids (storage order), favorite flag and optional lock flag. -/
structure View where
  id : String
  parent_view_id : String
  name : String
  layout : ViewLayout
  is_favorite : Bool
  is_locked : Option Bool
  children : List String
deriving DecidableEq

/-- The folder state (`collab_folder::Folder`): the workspace root with its
ordered top-level child ids, the node table, and the section memberships.
Trash and Favorite are modelled as single lists (the current user's
sections); Private is split into the current user's items and the items of
other identities, mirroring `get_my_private_sections` /
`get_all_private_sections`. -/
structure Folder where
  workspace_id : String
  workspace_children : List String
  views : List View
  trash : List String
  favorites : List String
  my_privates : List String
  other_privates : List String
deriving DecidableEq

/-- Embeds `Folder::get_view`: look up a view node by id. -/
def Folder.get_view (f : Folder) (view_id : String) : Option View :=
  f.views.find? (fun v => v.id == view_id)

/-- Embeds `Folder::get_views_belong_to`: the first-level child views of the given
parent, in storage order (`manager.rs` relies on this being one level only,
see the doc comments of `get_view_pb` and `get_all_trash_ids`). -/
def Folder.get_views_belong_to (f : Folder) (parent_view_id : String) : List View :=
  if parent_view_id = f.workspace_id then
    f.workspace_children.filterMap (fun cid => f.get_view cid)
  else
    match f.get_view parent_view_id with
    | none => []
    | some v => v.children.filterMap (fun cid => f.get_view cid)

/-- Embeds `Folder::get_my_trash_info`, reduced to the ids of the trash entries. -/
def Folder.get_my_trash_info (f : Folder) : List String :=
  f.trash

/-- Embeds `Folder::add_trash_view_ids`. -/
def Folder.add_trash_view_ids (f : Folder) (ids : List String) : Folder :=
  { f with trash := f.trash ++ ids }

/-- Embeds `Folder::delete_trash_view_ids`. -/
def Folder.delete_trash_view_ids (f : Folder) (ids : List String) : Folder :=
  { f with trash := f.trash.filter (fun x => !(ids.contains x)) }

/-- Embeds `Folder::delete_favorite_view_ids`: removes the ids from the Favorite
section and clears the denormalized `is_favorite` flag of those views. -/
def Folder.delete_favorite_view_ids (f : Folder) (ids : List String) : Folder :=
  { f with
    favorites := f.favorites.filter (fun x => !(ids.contains x)),
    views := f.views.map (fun v =>
      if ids.contains v.id then { v with is_favorite := false } else v) }

/-- Embeds `Folder::add_private_view_ids` (adds to the current user's Private
section). -/
def Folder.add_private_view_ids (f : Folder) (ids : List String) : Folder :=
  { f with my_privates := f.my_privates ++ ids }

/-- Embeds `Folder::is_view_in_section(Section::Private, id)` for the current
user. -/
def Folder.is_view_in_private_section (f : Folder) (view_id : String) : Bool :=
  f.my_privates.contains view_id

/-- Embeds `Folder::delete_views`: removes the nodes with the given ids from the
node table and detaches them from their parents.  Descendants of a removed
node stay in the table. -/
def Folder.delete_views (f : Folder) (ids : List String) : Folder :=
  { f with
    views := (f.views.filter (fun v => !(ids.contains v.id))).map (fun v =>
      { v with children := v.children.filter (fun c => !(ids.contains c)) }),
    workspace_children := f.workspace_children.filter (fun c => !(ids.contains c)) }

/-- Insert an element at the given position of a list (append when the
position is past the end). -/
def insertAt {α : Type} : Nat → α → List α → List α
  | 0, a, l => a :: l
  | _ + 1, a, [] => [a]
  | n + 1, a, x :: xs => x :: insertAt n a xs

/-- Remove the element at the given position of a list. -/
def eraseAt {α : Type} : Nat → List α → List α
  | _, [] => []
  | 0, _ :: xs => xs
  | n + 1, x :: xs => x :: eraseAt n xs

/-- Attach a child id to an ordered child list, at the given storage index
or appended when no index is supplied. -/
def attachChild (children : List String) (cid : String) : Option Nat → List String
  | none => children ++ [cid]
  | some i => insertAt i cid children

/-- Embeds `Folder::insert_view`: add the node to the table and attach it to its
parent (the workspace when the parent id is the workspace id) at the given
storage index, appended when absent. -/
def Folder.insert_view (f : Folder) (v : View) (index : Option Nat) : Folder :=
  if v.parent_view_id = f.workspace_id then
    { f with
      views := f.views ++ [v],
      workspace_children := attachChild f.workspace_children v.id index }
  else
    { f with
      views := (f.views.map (fun w =>
        if w.id = v.parent_view_id then
          { w with children := attachChild w.children v.id index }
        else w)) ++ [v] }

/-- Modelled from the spec: the underlying reorder primitive
`collab_folder::Folder::move_view(view_id, from, to)` (not under `src/`),
which moves the child at storage index `from` of the view's parent to
storage index `to`: remove it, then re-insert at the target position. -/
def listMove {α : Type} (l : List α) (fromIdx toIdx : Nat) : List α :=
  match l.get? fromIdx with
  | none => l
  | some a => insertAt toIdx a (eraseAt fromIdx l)

/-- Embeds `Folder::move_view` applied to the tree state: reorders the moved
view inside its parent's (or the workspace's) child list. -/
def Folder.move_view_impl (f : Folder) (view_id : String) (fromIdx toIdx : Nat) : Folder :=
  match f.get_view view_id with
  | none => f
  | some v =>
    match f.get_view v.parent_view_id with
    | none =>
      { f with workspace_children := listMove f.workspace_children fromIdx toIdx }
    | some p =>
      { f with views := f.views.map (fun w =>
          if w.id = p.id then { w with children := listMove w.children fromIdx toIdx }
          else w) }

/-- Modelled from the spec: the external
`collab_folder::Folder::get_view_recursively` (not under `src/`) — every id
reachable by recursively descending from the given view, with a
visited-set cycle guard.  Fuel-driven worklist descent. -/
def reachAux (f : Folder) : Nat → List String → List String → List String
  | 0, _, visited => visited
  | _ + 1, [], visited => visited
  | fuel + 1, cid :: rest, visited =>
    if visited.contains cid then reachAux f fuel rest visited
    else
      reachAux f fuel (((f.get_views_belong_to cid).map View.id) ++ rest)
        (visited ++ [cid])

/-- Fuel that always suffices for the worklist descent: one unit per node
plus one per child edge, with slack. -/
def reachFuel (f : Folder) : Nat :=
  (f.views.map (fun v => v.children.length + 1)).sum +
    f.workspace_children.length + f.views.length + 2

/-- Ids of the view itself and every view reachable below it. -/
def get_view_recursively_ids (f : Folder) (view_id : String) : List String :=
  reachAux f (reachFuel f) [view_id] []

/-- Embeds `get_all_child_view_ids` (manager.rs): the ids reachable below the view. -/
def get_all_child_view_ids (f : Folder) (view_id : String) : List String :=
  get_view_recursively_ids f view_id

/-- Embeds `FolderManager::get_all_trash_ids`: every trash-section id plus every
id reachable below a trashed view. -/
def get_all_trash_ids (f : Folder) : List String :=
  f.trash ++ f.trash.flatMap (fun tid => get_all_child_view_ids f tid)

/-- Embeds `FolderManager::get_other_private_view_ids`: ids in any Private section
not in the current user's Private section. -/
def get_other_private_view_ids (f : Folder) : List String :=
  (f.my_privates ++ f.other_privates).filter (fun x => !(f.my_privates.contains x))

/-- Embeds `FolderManager::get_view_ids_should_be_filtered`: trash (with
descendants) plus other identities' private views. -/
def get_view_ids_should_be_filtered (f : Folder) : List String :=
  get_all_trash_ids f ++ get_other_private_view_ids f

/-- Errors (`flowy_error::FlowyError`), reduced to their codes; message
strings are elided. -/
inductive FError
  | internal
  | recordNotFound
  | viewIsLocked
  | notInitialized
  | notSync
deriving DecidableEq

/-- A view serialized without children (`view_pb_without_child_views`,
reduced to the fields the manager logic reads). -/
structure ViewPBFlat where
  id : String
  parent_view_id : String
  name : String
  layout : ViewLayout
  is_favorite : Bool
  is_locked : Option Bool
deriving DecidableEq

/-- A view serialized with its first-level children
(`view_pb_with_child_views`). -/
structure ViewPB where
  id : String
  parent_view_id : String
  name : String
  child_views : List ViewPBFlat
  layout : ViewLayout
  is_favorite : Bool
  is_locked : Option Bool
deriving DecidableEq

/-- Embeds `entities::view::view_pb_without_child_views`. -/
def view_pb_without_child_views (v : View) : ViewPBFlat :=
  { id := v.id, parent_view_id := v.parent_view_id, name := v.name,
    layout := v.layout, is_favorite := v.is_favorite, is_locked := v.is_locked }

/-- Embeds `entities::view::view_pb_with_child_views`: only the first level of
child views is embedded. -/
def view_pb_with_child_views (v : View) (child_views : List View) : ViewPB :=
  { id := v.id, parent_view_id := v.parent_view_id, name := v.name,
    child_views := child_views.map view_pb_without_child_views,
    layout := v.layout, is_favorite := v.is_favorite, is_locked := v.is_locked }

/-- Notifications and external-handler calls, recorded in emission order. -/
inductive Event
  | DidUnfavoriteView (items : List ViewPBFlat)
  | DidMoveViewToTrash (view_id : String)
  | ChildViewsChangedDelete (view : ViewPBFlat)
  | DidUpdateParentViews (ids : List String)
  | HandlerDeleteView (view_id : String)
deriving DecidableEq

/-- Embeds `FolderManager::get_view_pb` for a non-Guest user: fails when the
folder is not initialized, when the id is hidden (trash or other-private),
or when the id is absent; otherwise serializes the view with its visible
first-level children. -/
def get_view_pb (m : Option Folder) (view_id : String) : Except FError ViewPB :=
  match m with
  | none => Except.error FError.notInitialized
  | some folder =>
    let filtered := get_view_ids_should_be_filtered folder
    if filtered.contains view_id then Except.error FError.recordNotFound
    else
      match folder.get_view view_id with
      | none => Except.error FError.recordNotFound
      | some view =>
        let child_views := (folder.get_views_belong_to view.id).filter
          (fun v => !(filtered.contains v.id))
        Except.ok (view_pb_with_child_views view child_views)

/-- Embeds `get_workspace_public_view_pbs` (manager.rs, free function): top-level
views that are neither trashed nor private, each with its untrashed
first-level children. -/
def get_workspace_public_view_pbs (f : Folder) : List ViewPB :=
  let trash_ids := f.trash
  let private_view_ids := f.my_privates ++ f.other_privates
  let views := (f.get_views_belong_to f.workspace_id).filter (fun v =>
    !(trash_ids.contains v.id) && !(private_view_ids.contains v.id))
  views.map (fun v =>
    let child_views := (f.get_views_belong_to v.id).filter (fun c =>
      !(trash_ids.contains c.id))
    view_pb_with_child_views v child_views)

/-- Embeds `FolderManager::get_workspace_public_views`: empty list when no folder
is loaded. -/
def get_workspace_public_views (m : Option Folder) : Except FError (List ViewPB) :=
  match m with
  | none => Except.ok []
  | some f => Except.ok (get_workspace_public_view_pbs f)

/-- Embeds `FolderManager::get_current_workspace`, reduced to its `views` field:
unlike the listing operations it faults when no folder is loaded. -/
def get_current_workspace_views (m : Option Folder) : Except FError (List ViewPB) :=
  match m with
  | none => Except.error FError.notSync
  | some f => Except.ok (get_workspace_public_view_pbs f)

/-- Embeds `FolderManager::get_views_belong_to`: empty list when no folder is
loaded. -/
def get_views_belong_to (m : Option Folder) (parent_view_id : String) :
    Except FError (List View) :=
  match m with
  | none => Except.ok []
  | some f => Except.ok (f.get_views_belong_to parent_view_id)

/-- Embeds `FolderManager::get_my_trash_info`: empty list when no folder is
loaded. -/
def get_my_trash_info (m : Option Folder) : List String :=
  match m with
  | none => []
  | some f => f.get_my_trash_info

/-- Embeds `FolderManager::get_view_relation`: `(is_workspace, parent id, the
parent's ordered storage child ids)`; falls back to the workspace when the
parent id resolves to no view. -/
def get_view_relation (m : Option Folder) (view_id : String) :
    Option (Bool × String × List String) :=
  match m with
  | none => none
  | some f =>
    match f.get_view view_id with
    | none => none
    | some view =>
      match f.get_view view.parent_view_id with
      | none => some (true, f.workspace_id, f.workspace_children)
      | some parent => some (false, parent.id, parent.children)

/-- Embeds `FolderManager::unfavorite_view_and_decendants`: collects the view and
its first-level children, keeps the currently-favorited ones, removes them
from the Favorite section and emits one batched unfavorite notification
when that list is non-empty. -/
def unfavorite_view_and_decendants (view : View) (folder : Folder) :
    Folder × List Event :=
  let all_descendant_views := view :: folder.get_views_belong_to view.id
  let favorite_descendant_views :=
    (all_descendant_views.filter (fun v => v.is_favorite)).map
      view_pb_without_child_views
  if favorite_descendant_views.isEmpty then (folder, [])
  else
    (folder.delete_favorite_view_ids (favorite_descendant_views.map ViewPBFlat.id),
     [Event.DidUnfavoriteView favorite_descendant_views])

/-- Embeds `FolderManager::move_view_to_trash`: rejects an id already in trash
(internal error) or a locked view; otherwise cascades the unfavorite, adds
the Trash membership and emits the move-to-trash and child-changed
notifications.  A missing view id is silently a no-op. -/
def move_view_to_trash (m : Option Folder) (view_id : String) :
    Except FError Unit × Option Folder × List Event :=
  match m with
  | none => (Except.ok (), none, [])
  | some folder =>
    if folder.get_my_trash_info.contains view_id then
      (Except.error FError.internal, some folder, [])
    else
      match folder.get_view view_id with
      | none => (Except.ok (), some folder, [])
      | some view =>
        if view.is_locked.getD false then
          (Except.error FError.viewIsLocked, some folder, [])
        else
          let p := unfavorite_view_and_decendants view folder
          let folder2 := p.1.add_trash_view_ids [view_id]
          (Except.ok (), some folder2,
            p.2 ++ [Event.DidMoveViewToTrash view_id,
              Event.ChildViewsChangedDelete (view_pb_without_child_views view)])

/-- The display listing used by `move_view`: the public workspace views
when the parent is the workspace, the visible children of the parent
otherwise. -/
def move_view_display (m : Option Folder) (is_workspace : Bool)
    (parent_view_id : String) : Except FError (List String) :=
  if is_workspace then
    match get_current_workspace_views m with
    | Except.error e => Except.error e
    | Except.ok vs => Except.ok (vs.map ViewPB.id)
  else
    match get_view_pb m parent_view_id with
    | Except.error e => Except.error e
    | Except.ok p => Except.ok (p.child_views.map ViewPBFlat.id)

/-- Embeds `FolderManager::move_view(view_id, from, to)`: checks the view is
visible and unlocked, resolves the display index `to` to the id occupying
it in the filtered listing, recomputes both storage indices in the
parent's storage child list and reorders with them; any unresolved lookup
short-circuits to success without mutation.  The `fromIdx` argument is
bound but never read, exactly as in the source. -/
def move_view (m : Option Folder) (view_id : String) (fromIdx toIdx : Nat) :
    Except FError Unit × Option Folder × List Event :=
  match get_view_pb m view_id with
  | Except.error e => (Except.error e, m, [])
  | Except.ok view =>
    if view.is_locked.getD false then (Except.error FError.viewIsLocked, m, [])
    else
      match get_view_relation m view_id with
      | none => (Except.ok (), m, [])
      | some (is_workspace, parent_view_id, child_views) =>
        match move_view_display m is_workspace parent_view_id with
        | Except.error e => (Except.error e, m, [])
        | Except.ok display_views =>
          match display_views[toIdx]? with
          | none => (Except.ok (), m, [])
          | some to_view_id =>
            match child_views.findIdx? (fun cid => cid == view_id),
                  child_views.findIdx? (fun cid => cid == to_view_id) with
            | some actual_from_index, some actual_to_index =>
              match m with
              | none => (Except.ok (), m, [])
              | some folder =>
                (Except.ok (),
                 some (folder.move_view_impl view_id actual_from_index actual_to_index),
                 [Event.DidUpdateParentViews [parent_view_id]])
            | _, _ => (Except.ok (), m, [])

/-- Embeds `FolderManager::delete_trash`: removes the Trash membership and the
node itself (descendants stay), then invokes the layout handler's
`delete_view` when the node existed. -/
def delete_trash (m : Option Folder) (view_id : String) :
    Except FError Unit × Option Folder × List Event :=
  match m with
  | none => (Except.ok (), none, [])
  | some folder =>
    let view := folder.get_view view_id
    let folder2 := (folder.delete_trash_view_ids [view_id]).delete_views [view_id]
    match view with
    | some _ => (Except.ok (), some folder2, [Event.HandlerDeleteView view_id])
    | none => (Except.ok (), some folder2, [])

/-- Embeds `flowy_folder_pub::cloud::gen_view_id`, modelled as a counter-indexed
generator; the generated ids live outside the id space of any concrete
source tree used here. -/
def gen_view_id (n : Nat) : String :=
  "gen-" ++ toString n

/-- Section choice recorded on `CreateViewParams`. -/
inductive ViewSection
  | Public
  | Private
deriving DecidableEq

/-- The index computed in each iteration of
`duplicate_view_with_parent_id`: the relation of the *destination parent*
is looked up, its sibling list is restricted to the ids present in the
filtered (hidden) set, and the source's position is taken in that
restricted list. -/
def duplicate_index (m : Option Folder) (filtered_view_ids : List String)
    (current_parent_id current_view_id : String) : Option Nat :=
  (get_view_relation m current_parent_id).bind (fun r =>
    ((r.2.2.filter (fun vid => filtered_view_ids.contains vid)).findIdx?
      (fun vid => vid == current_view_id)))

/-- The index the spec describes for the duplication loop: the source's
display position within its original parent, i.e. its position among the
siblings that are not filtered out. -/
def spec_display_index (m : Option Folder) (filtered_view_ids : List String)
    (current_view_id : String) : Option Nat :=
  (get_view_relation m current_view_id).bind (fun r =>
    ((r.2.2.filter (fun vid => !(filtered_view_ids.contains vid))).findIdx?
      (fun vid => vid == current_view_id)))

/-- Embeds `FolderManager::create_view_with_params` with workspace notification
suppressed, reduced to its tree effects: build the view record
(`view_operation::create_view`), insert it at the requested index and add
the Private membership when the section is Private.  Content-engine calls
and encoded-collab plumbing are external and elided. -/
def create_view_with_params (folder : Folder) (parent_view_id name : String)
    (layout : ViewLayout) (new_id : String) (index : Option Nat)
    (view_section : Option ViewSection) : Folder × View :=
  let is_private := view_section.getD ViewSection.Public = ViewSection.Private
  let view : View :=
    { id := new_id, parent_view_id := parent_view_id, name := name,
      layout := layout, is_favorite := false, is_locked := none, children := [] }
  let folder2 := folder.insert_view view index
  let folder3 := if is_private then folder2.add_private_view_ids [view.id] else folder2
  (folder3, view)

/-- Loop state of `duplicate_view_with_parent_id`: the evolving folder, the
explicit LIFO stack of `(source id, destination parent id)` pairs (head is
the top), the id-generator counter, the first-iteration flag and the id of
the very first clone. -/
structure DupState where
  folder : Folder
  stack : List (String × String)
  gen : Nat
  is_source_view : Bool
  new_view_id : String
deriving DecidableEq

/-- One-per-iteration body of the duplication loop, fuel-driven (the Rust
loop runs until the stack empties; with enough fuel the model never takes
the fuel-exhaustion branch on the trees considered).  Mirrors the source:
fetch the source view (`RecordNotFound` when absent), compute the insertion
index via `duplicate_index`, preserve the Private/Public section of the
source, name the first clone `name + suffix` (with "Untitled" for an empty
name), create the clone with a fresh id, and when `include_children` push
the non-filtered, non-Chat children of the source (reversed, so popping
restores left-to-right order) with the clone as destination parent. -/
def dupLoop (filtered_view_ids : List String) (include_children : Bool)
    (suffix : String) : Nat → DupState → Except FError DupState
  | 0, _ => Except.error FError.internal
  | fuel + 1, st =>
    match st.stack with
    | [] => Except.ok st
    | (current_view_id, current_parent_id) :: rest =>
      match st.folder.get_view current_view_id with
      | none => Except.error FError.recordNotFound
      | some view =>
        let index := duplicate_index (some st.folder) filtered_view_ids
          current_parent_id current_view_id
        let view_section :=
          if st.folder.is_view_in_private_section view.id then ViewSection.Private
          else ViewSection.Public
        let name :=
          if st.is_source_view then
            (if view.name = "" then "Untitled" else view.name) ++ suffix
          else view.name
        let new_id := gen_view_id st.gen
        let created := create_view_with_params st.folder current_parent_id name
          view.layout new_id index (some view_section)
        let folder2 := created.1
        let duplicated_view := created.2
        let new_view_id := if st.is_source_view then duplicated_view.id else st.new_view_id
        let stack2 :=
          if include_children then
            let child_views := folder2.get_views_belong_to current_view_id
            ((child_views.filter (fun c =>
                !(filtered_view_ids.contains c.id) && c.layout != ViewLayout.Chat)).map
              (fun c => (c.id, duplicated_view.id))) ++ rest
          else rest
        dupLoop filtered_view_ids include_children suffix fuel
          { folder := folder2, stack := stack2, gen := st.gen + 1,
            is_source_view := false, new_view_id := new_view_id }

/-- Fuel for the duplication loop, generous for any acyclic source tree. -/
def dupFuel (f : Folder) : Nat :=
  (f.views.length + 2) * (f.views.length + 2)

/-- Embeds `FolderManager::duplicate_view_with_parent_id`, reduced to its tree
effects: rejects self-duplication, snapshots the hidden-id set, runs the
stack loop and returns the final folder together with the id of the first
clone.  Cloud sync, the final notification and the final `get_view_pb`
round-trip are elided. -/
def duplicate_view_with_parent_id (m : Option Folder)
    (view_id parent_view_id : String) (include_children : Bool)
    (suffix : Option String) : Except FError (Folder × String) :=
  if view_id = parent_view_id then Except.error FError.internal
  else
    let filtered_view_ids :=
      match m with
      | none => []
      | some f => get_view_ids_should_be_filtered f
    match m with
    | none => Except.error FError.recordNotFound
    | some f =>
      match dupLoop filtered_view_ids include_children (suffix.getD " (copy)")
          (dupFuel f)
          { folder := f, stack := [(view_id, parent_view_id)], gen := 0,
            is_source_view := true, new_view_id := "" } with
      | Except.error e => Except.error e
      | Except.ok st => Except.ok (st.folder, st.new_view_id)

/-- Embeds `FolderManager::get_view_ancestors_pb`: walk `parent_view_id` upward
accumulating leaf-to-root, stopping when the id is absent or when a
previously-visited id recurs (the cycle guard), then reverse.  The Rust
`while let` loop carries no fuel; the fuel here is made irrelevant by the
stabilization theorem below. -/
def get_view_ancestors_loop (f : Folder) :
    Nat → String → List ViewPBFlat → List ViewPBFlat
  | 0, _, ancestors => ancestors
  | fuel + 1, parent_view_id, ancestors =>
    match f.get_view parent_view_id with
    | none => ancestors
    | some view =>
      if ancestors.any (fun v => v.id == view.id) then ancestors
      else
        get_view_ancestors_loop f fuel view.parent_view_id
          (ancestors ++ [view_pb_without_child_views view])

/-- Embeds `FolderManager::get_view_ancestors_pb`: empty when no folder loaded. -/
def get_view_ancestors_pb (m : Option Folder) (view_id : String) :
    List ViewPBFlat :=
  match m with
  | none => []
  | some f =>
    (get_view_ancestors_loop f (f.views.length + 1) view_id []).reverse

/-- Fixture builder: a view named after its id. -/
def mkView (vid pid : String) (children : List String) (fav : Bool := false)
    (locked : Option Bool := none)
    (layout : ViewLayout := ViewLayout.Document) : View :=
  { id := vid, parent_view_id := pid, name := vid, layout := layout,
    is_favorite := fav, is_locked := locked, children := children }

/-- Fixture for the `move_view` display-index translation: parent `p` with
storage children `[T, A, B, C]` where `T` is trashed, so the display list
is `[A, B, C]`. -/
def fxMove : Folder :=
  { workspace_id := "w", workspace_children := ["p"],
    views := [mkView "p" "w" ["T", "A", "B", "C"], mkView "T" "p" [],
              mkView "A" "p" [], mkView "B" "p" [], mkView "C" "p" []],
    trash := ["T"], favorites := [], my_privates := [], other_privates := [] }

/-- C10: with no tree loaded, `get_workspace_public_views`,
`get_views_belong_to` and `get_my_trash_info` answer an empty list
successfully, while `get_view_pb` returns the not-initialized error. -/
theorem c10_uninitialized_listings :
    ∀ view_id : String,
      get_workspace_public_views none = Except.ok [] ∧
      get_views_belong_to none view_id = Except.ok [] ∧
      get_my_trash_info none = [] ∧
      get_view_pb none view_id = Except.error FError.notInitialized := by
  intro view_id
  exact ⟨rfl, rfl, rfl, rfl⟩

/-- C8: `move_view` never consults its `from` argument — the call is a
function of the state, the view id and the target index only, so any two
`from` values give identical results, states and notifications. -/
theorem c8_move_view_from_irrelevant :
    ∀ (m : Option Folder) (view_id : String) (from1 from2 toIdx : Nat),
      move_view m view_id from1 toIdx = move_view m view_id from2 toIdx := by
  intro m view_id from1 from2 toIdx
  rfl

/-- C3: on a parent with storage children `[T(trashed), A, B, C]` the
display list is `[A, B, C]`; `move_view` of `A` to display index 2
resolves that index to `C`, reorders with the storage indices, and ends
with storage order `[T, B, C, A]` — `A` after `B` and `C`, `T` untouched
at storage position 0. -/
theorem c3_move_view_display_index_translation :
    move_view_display (some fxMove) false "p" = Except.ok ["A", "B", "C"] ∧
    (move_view (some fxMove) "A" 0 2).1 = Except.ok () ∧
    ((move_view (some fxMove) "A" 0 2).2.1.map
        (fun f => (f.get_view "p").map View.children)) =
      some (some ["T", "B", "C", "A"]) ∧
    (move_view (some fxMove) "A" 0 2).2.2 = [Event.DidUpdateParentViews ["p"]] := by
  exact ⟨rfl, rfl, rfl, rfl⟩

/-- Fixture for subtree duplication: source subtree of depth 3 and
branching factor 2 rooted at `s1` (children `s2, s3`; grandchildren
`s4..s7`), nothing trashed, private or Chat-layout. -/
def fxDupTree : Folder :=
  { workspace_id := "w", workspace_children := ["s1"],
    views := [mkView "s1" "w" ["s2", "s3"], mkView "s2" "s1" ["s4", "s5"],
              mkView "s3" "s1" ["s6", "s7"], mkView "s4" "s2" [],
              mkView "s5" "s2" [], mkView "s6" "s3" [], mkView "s7" "s3" []],
    trash := [], favorites := [], my_privates := [], other_privates := [] }

/-- C7: duplicating `s1` with `include_children` over the depth-3,
branching-2 subtree creates exactly the seven fresh views
`gen-0 .. gen-6`, all ids distinct from every source id, and each cloned
parent keeps the source's relative sibling order (`gen-0`, the clone of
`s1`, has children `[gen-1, gen-4]` cloning `[s2, s3]`, and so on down;
the clone names record which source each clone copies). -/
theorem c7_duplicate_include_children_seven_fresh_views :
    ((duplicate_view_with_parent_id (some fxDupTree) "s1" "w" true none).toOption.map
        (fun r => r.1.views.map View.id)) =
      some ["s1", "s2", "s3", "s4", "s5", "s6", "s7",
            "gen-0", "gen-1", "gen-2", "gen-3", "gen-4", "gen-5", "gen-6"] ∧
    List.Nodup ["s1", "s2", "s3", "s4", "s5", "s6", "s7",
                "gen-0", "gen-1", "gen-2", "gen-3", "gen-4", "gen-5", "gen-6"] ∧
    ((duplicate_view_with_parent_id (some fxDupTree) "s1" "w" true none).toOption.map
        (fun r => ((r.1.get_view "gen-0").map View.children,
                   (r.1.get_view "gen-1").map View.children,
                   (r.1.get_view "gen-4").map View.children,
                   r.2))) =
      some (some ["gen-1", "gen-4"], some ["gen-2", "gen-3"],
            some ["gen-5", "gen-6"], "gen-0") ∧
    ((duplicate_view_with_parent_id (some fxDupTree) "s1" "w" true none).toOption.map
        (fun r => [(r.1.get_view "gen-0").map View.name,
                   (r.1.get_view "gen-1").map View.name,
                   (r.1.get_view "gen-2").map View.name,
                   (r.1.get_view "gen-3").map View.name,
                   (r.1.get_view "gen-4").map View.name,
                   (r.1.get_view "gen-5").map View.name,
                   (r.1.get_view "gen-6").map View.name])) =
      some [some "s1 (copy)", some "s2", some "s4", some "s5",
            some "s3", some "s6", some "s7"] := by
  refine ⟨rfl, by decide, rfl, rfl⟩

/-- Fixture: `r` has child `a`, which has child `b`; the grandchild `b`
is favorited. -/
def fxGrandchild : Folder :=
  { workspace_id := "w", workspace_children := ["r"],
    views := [mkView "r" "w" ["a"], mkView "a" "r" ["b"],
              mkView "b" "a" [] true],
    trash := [], favorites := ["b"], my_privates := [], other_privates := [] }

/-- C1 counterexample: trashing `r` succeeds, and `b` — a favorited
descendant of `r` at depth 2, as the recursive-descent ids confirm —
stays in the Favorite section, and no unfavorite notification at all is
emitted; the cascade reaches only the view and its first-level children,
not descendants at any depth. -/
theorem c1_counterexample_grandchild_stays_favorited :
    (move_view_to_trash (some fxGrandchild) "r").1 = Except.ok () ∧
    get_view_recursively_ids fxGrandchild "r" = ["r", "a", "b"] ∧
    (fxGrandchild.get_view "b").map View.is_favorite = some true ∧
    ((move_view_to_trash (some fxGrandchild) "r").2.1.map Folder.favorites) =
      some ["b"] ∧
    (∀ items : List ViewPBFlat,
      Event.DidUnfavoriteView items ∉ (move_view_to_trash (some fxGrandchild) "r").2.2) := by
  refine ⟨rfl, rfl, rfl, rfl, ?_⟩
  intro items h
  have hev : (move_view_to_trash (some fxGrandchild) "r").2.2 =
      [Event.DidMoveViewToTrash "r",
       Event.ChildViewsChangedDelete
         (view_pb_without_child_views (mkView "r" "w" ["a"]))] := rfl
  rw [hev] at h
  simp at h

/-- The views the trash cascade actually unfavorites: the currently
favorited ones among the view itself and its first-level children. -/
def currently_favorited_first_level (f : Folder) (view : View) : List ViewPBFlat :=
  ((view :: f.get_views_belong_to view.id).filter (fun v => v.is_favorite)).map
    view_pb_without_child_views

/-- C1 amended: when `move_view_to_trash` succeeds on a present, unlocked,
not-yet-trashed view, exactly the currently-favorited views among the view
itself and its first-level children (not deeper descendants) lose their
Favorite membership, the view gains Trash membership, and exactly one
batched unfavorite notification listing exactly those views is emitted
when that set is non-empty (none when it is empty). -/
theorem c1_amended_unfavorite_view_and_first_level (f : Folder)
    (view_id : String) (v : View)
    (hns : f.trash.contains view_id = false)
    (hv : f.get_view view_id = some v)
    (hl : v.is_locked.getD false = false) :
    (move_view_to_trash (some f) view_id).1 = Except.ok () ∧
    (∃ f2 : Folder, (move_view_to_trash (some f) view_id).2.1 = some f2 ∧
      f2.favorites = f.favorites.filter (fun x =>
        !(((currently_favorited_first_level f v).map ViewPBFlat.id).contains x)) ∧
      f2.trash = f.trash ++ [view_id]) ∧
    ((move_view_to_trash (some f) view_id).2.2.countP (fun e =>
        match e with
        | Event.DidUnfavoriteView _ => true
        | _ => false)) =
      (if (currently_favorited_first_level f v).isEmpty then 0 else 1) ∧
    (∀ items : List ViewPBFlat,
      Event.DidUnfavoriteView items ∈ (move_view_to_trash (some f) view_id).2.2 →
        items = currently_favorited_first_level f v) := by
  have hmain : move_view_to_trash (some f) view_id =
      (Except.ok (),
       some ((unfavorite_view_and_decendants v f).1.add_trash_view_ids [view_id]),
       (unfavorite_view_and_decendants v f).2 ++
         [Event.DidMoveViewToTrash view_id,
          Event.ChildViewsChangedDelete (view_pb_without_child_views v)]) := by
    simp only [move_view_to_trash, Folder.get_my_trash_info, hns, hv, hl,
      Bool.false_eq_true, if_false]
  by_cases hfav : (currently_favorited_first_level f v).isEmpty
  · have hunf : unfavorite_view_and_decendants v f = (f, []) := by
      simp only [unfavorite_view_and_decendants, currently_favorited_first_level] at hfav ⊢
      rw [hfav]
      rfl
    refine ⟨by rw [hmain], ⟨f.add_trash_view_ids [view_id], by rw [hmain, hunf], ?_, rfl⟩, ?_, ?_⟩
    · have hnil : (currently_favorited_first_level f v).map ViewPBFlat.id = [] := by
        rw [List.isEmpty_iff] at hfav
        rw [hfav]
        rfl
      rw [hnil]
      simp [Folder.add_trash_view_ids]
    · rw [hmain, hunf, hfav]
      rfl
    · intro items hmem
      rw [hmain, hunf] at hmem
      simp at hmem
  · have hunf : unfavorite_view_and_decendants v f =
        (f.delete_favorite_view_ids ((currently_favorited_first_level f v).map ViewPBFlat.id),
         [Event.DidUnfavoriteView (currently_favorited_first_level f v)]) := by
      simp only [unfavorite_view_and_decendants, currently_favorited_first_level] at hfav ⊢
      rw [if_neg (by simpa using hfav)]
    refine ⟨by rw [hmain], ⟨_, by rw [hmain, hunf], rfl, rfl⟩, ?_, ?_⟩
    · rw [hmain, hunf, if_neg hfav]
      rfl
    · intro items hmem
      rw [hmain, hunf] at hmem
      simp at hmem
      exact hmem

/-- Fixture: `r` with three children, two of them favorited. -/
def fxTwoFav : Folder :=
  { workspace_id := "w", workspace_children := ["r"],
    views := [mkView "r" "w" ["c1", "c2", "c3"], mkView "c1" "r" [] true,
              mkView "c2" "r" [] true, mkView "c3" "r" []],
    trash := [], favorites := ["c1", "c2"], my_privates := [], other_privates := [] }

/-- Witness for the amended C1 theorem: trashing `r`, whose children `c1`
and `c2` are favorited, succeeds, empties the Favorite section and emits
exactly one batched unfavorite notification. -/
theorem c1_amended_unfavorite_view_and_first_level_witness :
    (move_view_to_trash (some fxTwoFav) "r").1 = Except.ok () ∧
    ((move_view_to_trash (some fxTwoFav) "r").2.2.countP (fun e =>
        match e with
        | Event.DidUnfavoriteView _ => true
        | _ => false)) = 1 ∧
    ((move_view_to_trash (some fxTwoFav) "r").2.1.map Folder.favorites) = some [] := by
  have h := c1_amended_unfavorite_view_and_first_level fxTwoFav "r"
    (mkView "r" "w" ["c1", "c2", "c3"]) (by decide) (by rfl) (by rfl)
  refine ⟨h.1, ?_, by rfl⟩
  rw [h.2.2.1]
  rfl

/-- C5: `move_view_to_trash` rejects an id already in the Trash section
with the already-trashed (internal) error, and rejects a locked,
not-yet-trashed view with the view-locked error; in both cases it returns
before any mutation, leaving the folder — trash, favorites and tree —
exactly as it was and emitting nothing. -/
theorem c5_trash_rejections_before_mutation (f : Folder) (view_id : String) :
    (f.trash.contains view_id = true →
      move_view_to_trash (some f) view_id =
        (Except.error FError.internal, some f, [])) ∧
    (f.trash.contains view_id = false →
      ∀ v : View, f.get_view view_id = some v → v.is_locked = some true →
        move_view_to_trash (some f) view_id =
          (Except.error FError.viewIsLocked, some f, [])) := by
  constructor
  · intro h
    simp only [move_view_to_trash, Folder.get_my_trash_info, h, if_true]
  · intro h v hv hl
    simp only [move_view_to_trash, Folder.get_my_trash_info, h,
      Bool.false_eq_true, if_false, hv, hl, Option.getD_some, if_true]

/-- Fixture: `t` already trashed, `l` locked. -/
def fxTrashLock : Folder :=
  { workspace_id := "w", workspace_children := ["t", "l"],
    views := [mkView "t" "w" [], mkView "l" "w" [] false (some true)],
    trash := ["t"], favorites := [], my_privates := [], other_privates := [] }

/-- Witness for C5 at a concrete folder: trashing the already-trashed `t`
and the locked `l` each fail with the respective error and leave the
state untouched. -/
theorem c5_trash_rejections_before_mutation_witness :
    move_view_to_trash (some fxTrashLock) "t" =
      (Except.error FError.internal, some fxTrashLock, []) ∧
    move_view_to_trash (some fxTrashLock) "l" =
      (Except.error FError.viewIsLocked, some fxTrashLock, []) := by
  constructor
  · exact (c5_trash_rejections_before_mutation fxTrashLock "t").1 (by decide)
  · exact (c5_trash_rejections_before_mutation fxTrashLock "l").2 (by decide)
      (mkView "l" "w" [] false (some true)) (by rfl) (by rfl)

/-- C6: `delete_trash` on a present view succeeds, removes exactly that
view's node and Trash membership, invokes the layout handler's
`delete_view` once, and leaves everything else alone: Favorite and Private
memberships are untouched and every other view node survives (descendants
included), changed only by dropping the deleted id from its child list. -/
theorem c6_delete_trash_removes_only_the_node (f : Folder) (view_id : String)
    (v : View) (hv : f.get_view view_id = some v) :
    (delete_trash (some f) view_id).1 = Except.ok () ∧
    (delete_trash (some f) view_id).2.2 = [Event.HandlerDeleteView view_id] ∧
    ∃ f2 : Folder, (delete_trash (some f) view_id).2.1 = some f2 ∧
      f2.get_view view_id = none ∧
      f2.trash = f.trash.filter (fun x => !(([view_id] : List String).contains x)) ∧
      f2.favorites = f.favorites ∧
      f2.my_privates = f.my_privates ∧
      f2.other_privates = f.other_privates ∧
      (∀ w : View, w ∈ f.views → w.id ≠ view_id →
        { w with children := (w.children.filter (fun c => !(([view_id] : List String).contains c))) } ∈ f2.views) := by
  have hd : delete_trash (some f) view_id =
      (Except.ok (),
       some ((f.delete_trash_view_ids [view_id]).delete_views [view_id]),
       [Event.HandlerDeleteView view_id]) := by
    simp only [delete_trash, hv]
  refine ⟨by rw [hd], by rw [hd],
    (f.delete_trash_view_ids [view_id]).delete_views [view_id], by rw [hd],
    ?_, rfl, rfl, rfl, rfl, ?_⟩
  · simp only [Folder.get_view, Folder.delete_views, Folder.delete_trash_view_ids]
    rw [List.find?_eq_none]
    intro x hx
    rw [List.mem_map] at hx
    obtain ⟨w, hw, rfl⟩ := hx
    rw [List.mem_filter] at hw
    have hne : ¬ w.id = view_id := by
      have h2 := hw.2
      simp at h2
      exact h2
    simpa using hne
  · intro w hw hne
    simp only [Folder.delete_views, Folder.delete_trash_view_ids]
    rw [List.mem_map]
    exact ⟨w, List.mem_filter.mpr ⟨hw, by simp [hne]⟩, rfl⟩

/-- Fixture: trashed `a` sits between `r` and its child `b`. -/
def fxDelete : Folder :=
  { workspace_id := "w", workspace_children := ["r"],
    views := [mkView "r" "w" ["a"], mkView "a" "r" ["b"], mkView "b" "a" []],
    trash := ["a"], favorites := ["b"], my_privates := [], other_privates := [] }

/-- Witness for C6 at a concrete folder: permanently deleting `a` removes
`a` alone — its child `b` survives with unchanged Favorite membership —
and calls the handler once. -/
theorem c6_delete_trash_removes_only_the_node_witness :
    (delete_trash (some fxDelete) "a").1 = Except.ok () ∧
    (delete_trash (some fxDelete) "a").2.2 = [Event.HandlerDeleteView "a"] ∧
    ((delete_trash (some fxDelete) "a").2.1.map
        (fun f => ((f.get_view "a").isNone, (f.get_view "b").isSome, f.favorites))) =
      some (true, true, ["b"]) := by
  have h := c6_delete_trash_removes_only_the_node fxDelete "a"
    (mkView "a" "r" ["b"]) (by rfl)
  exact ⟨h.1, h.2.1, by rfl⟩

/-- Searching with `findIdx?` for an element the list does not contain
finds nothing. -/
theorem findIdx_none_of_not_contains (l : List String) (x : String)
    (h : l.contains x = false) : l.findIdx? (fun y => y == x) = none := by
  rw [List.findIdx?_eq_none_iff]
  intro y hy
  have hx : x ∉ l := by simpa using h
  exact beq_eq_false_iff_ne.mpr (fun e => hx (e ▸ hy))

/-- Restricting a list to the members of `filtered` cannot introduce an
element that `filtered` lacks. -/
theorem contains_filter_subset (l filtered : List String) (src : String)
    (h : filtered.contains src = false) :
    (l.filter (fun vid => filtered.contains vid)).contains src = false := by
  have hmem : src ∉ l.filter (fun vid => filtered.contains vid) := by
    intro hmem
    rw [List.mem_filter] at hmem
    exact absurd hmem.2 (by rw [h]; simp)
  simpa using hmem

/-- Fixture: public parent `p` with children `a, b`, nothing hidden. -/
def fxDupPub : Folder :=
  { workspace_id := "w", workspace_children := ["p"],
    views := [mkView "p" "w" ["a", "b"], mkView "a" "p" [], mkView "b" "p" []],
    trash := [], favorites := [], my_privates := [], other_privates := [] }

/-- Fixture: like `fxDupPub` but the source `a` is in the user's Private
section. -/
def fxDupPriv : Folder :=
  { workspace_id := "w", workspace_children := ["p"],
    views := [mkView "p" "w" ["a", "b"], mkView "a" "p" [], mkView "b" "p" []],
    trash := [], favorites := [], my_privates := ["a"], other_privates := [] }

/-- C2 counterexample: duplicating `a` (display position 0 among `p`'s
visible children, as `spec_display_index` computes) appends the clone at
position 2 of `p`'s children instead — the loop's index is not the
source's display position within its original parent. -/
theorem c2_counterexample_clone_not_at_display_position :
    spec_display_index (some fxDupPub) (get_view_ids_should_be_filtered fxDupPub) "a" =
      some 0 ∧
    duplicate_index (some fxDupPub) (get_view_ids_should_be_filtered fxDupPub) "p" "a" =
      none ∧
    ((duplicate_view_with_parent_id (some fxDupPub) "a" "p" false none).toOption.map
        (fun r => (r.1.get_view "p").map View.children)) =
      some (some ["a", "b", "gen-0"]) ∧
    ((["a", "b", "gen-0"] : List String).findIdx? (fun y => y == "gen-0")) = some 2 := by
  exact ⟨rfl, rfl, rfl, rfl⟩

/-- C2 amended: the loop's index comes from the *destination parent's*
sibling list restricted to the hidden (filtered) ids, so whenever the
source id is not itself hidden the index is `none` and the clone is
appended; the clone's section membership does equal the source's (Private
when the source is in the Private section, Public otherwise). -/
theorem c2_amended_hidden_index_and_section_preserved :
    (∀ (m : Option Folder) (filtered : List String) (pid src : String),
        filtered.contains src = false →
        duplicate_index m filtered pid src = none) ∧
    ((duplicate_view_with_parent_id (some fxDupPriv) "a" "p" false none).toOption.map
        (fun r => r.1.my_privates.contains r.2)) = some true ∧
    ((duplicate_view_with_parent_id (some fxDupPub) "a" "p" false none).toOption.map
        (fun r => r.1.my_privates.contains r.2)) = some false := by
  refine ⟨?_, rfl, rfl⟩
  intro m filtered pid src h
  unfold duplicate_index
  cases hrel : get_view_relation m pid with
  | none => rfl
  | some r =>
    exact findIdx_none_of_not_contains _ _ (contains_filter_subset _ _ _ h)

/-- Witness for the amended C2 theorem: a non-hidden source under a
concrete folder gets index `none`. -/
theorem c2_amended_hidden_index_and_section_preserved_witness :
    duplicate_index (some fxDupPub) [] "p" "a" = none :=
  c2_amended_hidden_index_and_section_preserved.1 (some fxDupPub) [] "p" "a" (by decide)

/-- C9: when the earlier lookups succeed (visible unlocked view, relation
and display listing resolved) but the target display index is out of range
of the visible children, or the view id does not occur among the parent's
storage children, `move_view` answers success without touching the folder
and without emitting anything. -/
theorem c9_move_view_silent_skip (f : Folder) (view_id : String)
    (fr toIdx : Nat) (view : ViewPB) (bw : Bool) (pid : String)
    (kids : List String) (ds : List String)
    (h1 : get_view_pb (some f) view_id = Except.ok view)
    (h2 : view.is_locked.getD false = false)
    (h3 : get_view_relation (some f) view_id = some (bw, pid, kids))
    (h4 : move_view_display (some f) bw pid = Except.ok ds)
    (h5 : ds.length ≤ toIdx ∨ kids.contains view_id = false) :
    move_view (some f) view_id fr toIdx = (Except.ok (), some f, []) := by
  cases h5 with
  | inl hlen =>
    have hnone : ds[toIdx]? = none := List.getElem?_eq_none hlen
    simp only [move_view, h1, h2, Bool.false_eq_true, if_false, h3, h4, hnone]
  | inr hnc =>
    have hfi : kids.findIdx? (fun cid => cid == view_id) = none :=
      findIdx_none_of_not_contains kids view_id hnc
    simp only [move_view, h1, h2, Bool.false_eq_true, if_false, h3, h4, hfi]
    cases hds : ds[toIdx]? with
    | none => rfl
    | some tid => rfl

/-- Witness for C9: on the `[T, A, B, C]` fixture, display index 7 is out
of range, so moving `A` there succeeds with no change. -/
theorem c9_move_view_silent_skip_witness :
    move_view (some fxMove) "A" 0 7 = (Except.ok (), some fxMove, []) := by
  exact c9_move_view_silent_skip fxMove "A" 0 7
    (view_pb_with_child_views (mkView "A" "p" []) []) false "p"
    ["T", "A", "B", "C"] ["A", "B", "C"] (by rfl) (by rfl) (by rfl) (by rfl)
    (Or.inl (by decide))

/-- Filtering away an element present in the list strictly shortens it. -/
theorem length_filter_ne_lt (l : List String) (a : String) (h : a ∈ l) :
    (l.filter (fun x => !(x == a))).length < l.length := by
  induction l with
  | nil => cases h
  | cons y ys ih =>
    by_cases hy : y = a
    · subst hy
      simp only [List.filter_cons, beq_self_eq_true, Bool.not_true, if_neg]
      · exact Nat.lt_succ_of_le (List.length_filter_le _ _)
    · cases h with
      | head => exact absurd rfl hy
      | tail _ hmem =>
        have hne : (y == a) = false := by simp [hy]
        simp only [List.filter_cons, hne, Bool.not_false, if_pos, List.length_cons]
        exact Nat.succ_lt_succ (ih hmem)

/-- The number of view ids of the folder not yet visited by the ancestor
walk: the decreasing measure behind its cycle guard. -/
def freshCount (f : Folder) (acc : List ViewPBFlat) : Nat :=
  ((f.views.map View.id).dedup.filter
    (fun i => !((acc.map ViewPBFlat.id).contains i))).length

/-- Visiting one view of the folder that the accumulator has not seen
strictly decreases the fresh count. -/
theorem freshCount_step (f : Folder) (acc : List ViewPBFlat) (view : View)
    (hmem : view ∈ f.views)
    (hnotin : view.id ∉ acc.map ViewPBFlat.id) :
    freshCount f (acc ++ [view_pb_without_child_views view]) < freshCount f acc := by
  unfold freshCount
  have hpointwise : ∀ i ∈ (f.views.map View.id).dedup,
      (!(((acc ++ [view_pb_without_child_views view]).map ViewPBFlat.id).contains i)) =
      ((!(i == view.id)) && (!((acc.map ViewPBFlat.id).contains i))) := by
    intro i _
    by_cases hacc : i ∈ acc.map ViewPBFlat.id <;> by_cases hvid : i = view.id <;>
      simp [List.map_append, view_pb_without_child_views, hacc, hvid]
  rw [List.filter_congr hpointwise, ← @List.filter_filter String
    (fun i => !(i == view.id)) (fun i => !((acc.map ViewPBFlat.id).contains i))]
  apply length_filter_ne_lt
  rw [List.mem_filter]
  constructor
  · exact List.mem_dedup.mpr (List.mem_map.mpr ⟨view, hmem, rfl⟩)
  · simpa using hnotin

/-- The ancestor walk only ever appends to its accumulator. -/
theorem ancestors_loop_prefix (f : Folder) :
    ∀ (fuel : Nat) (pid : String) (acc : List ViewPBFlat),
      ∃ t : List ViewPBFlat, get_view_ancestors_loop f fuel pid acc = acc ++ t := by
  intro fuel
  induction fuel with
  | zero =>
    intro pid acc
    exact ⟨[], by simp [get_view_ancestors_loop]⟩
  | succ n ih =>
    intro pid acc
    cases hv : f.get_view pid with
    | none => exact ⟨[], by simp [get_view_ancestors_loop, hv]⟩
    | some view =>
      by_cases hany : (acc.any (fun v => v.id == view.id)) = true
      · exact ⟨[], by simp [get_view_ancestors_loop, hv, hany]⟩
      · obtain ⟨t, ht⟩ := ih view.parent_view_id
          (acc ++ [view_pb_without_child_views view])
        refine ⟨view_pb_without_child_views view :: t, ?_⟩
        have hstep : get_view_ancestors_loop f (n + 1) pid acc =
            get_view_ancestors_loop f n view.parent_view_id
              (acc ++ [view_pb_without_child_views view]) := by
          simp [get_view_ancestors_loop, hv, hany]
        rw [hstep, ht, List.append_assoc]
        rfl

/-- The ancestor walk preserves distinctness of the accumulated ids. -/
theorem ancestors_loop_nodup (f : Folder) :
    ∀ (fuel : Nat) (pid : String) (acc : List ViewPBFlat),
      (acc.map ViewPBFlat.id).Nodup →
      ((get_view_ancestors_loop f fuel pid acc).map ViewPBFlat.id).Nodup := by
  intro fuel
  induction fuel with
  | zero =>
    intro pid acc h
    simpa [get_view_ancestors_loop] using h
  | succ n ih =>
    intro pid acc h
    cases hv : f.get_view pid with
    | none => simpa [get_view_ancestors_loop, hv] using h
    | some view =>
      by_cases hany : (acc.any (fun v => v.id == view.id)) = true
      · simpa [get_view_ancestors_loop, hv, hany] using h
      · have hstep : get_view_ancestors_loop f (n + 1) pid acc =
            get_view_ancestors_loop f n view.parent_view_id
              (acc ++ [view_pb_without_child_views view]) := by
          simp [get_view_ancestors_loop, hv, hany]
        rw [hstep]
        apply ih
        have hnotin : view.id ∉ acc.map ViewPBFlat.id := by
          simp at hany
          rw [List.mem_map]
          rintro ⟨pb, hpb, hid⟩
          exact hany pb hpb hid
        rw [List.map_append]
        refine List.Nodup.append h (List.nodup_singleton _) ?_
        simp [List.disjoint_left, view_pb_without_child_views]
        intro pb hpb hid
        exact hnotin (List.mem_map.mpr ⟨pb, hpb, hid⟩)

/-- The ancestor walk stabilizes: any two fuel values above the fresh
count give the same result — the Rust `while let` loop, whose only bound
is the cycle guard, terminates with exactly this value. -/
theorem ancestors_loop_stable (f : Folder) :
    ∀ (fuel1 fuel2 : Nat) (pid : String) (acc : List ViewPBFlat),
      freshCount f acc < fuel1 → freshCount f acc < fuel2 →
      get_view_ancestors_loop f fuel1 pid acc =
        get_view_ancestors_loop f fuel2 pid acc := by
  intro fuel1
  induction fuel1 with
  | zero =>
    intro fuel2 pid acc h1 _
    exact absurd h1 (Nat.not_lt_zero _)
  | succ n ih =>
    intro fuel2 pid acc h1 h2
    cases fuel2 with
    | zero => exact absurd h2 (Nat.not_lt_zero _)
    | succ m =>
      cases hv : f.get_view pid with
      | none => simp [get_view_ancestors_loop, hv]
      | some view =>
        by_cases hany : (acc.any (fun v => v.id == view.id)) = true
        · simp [get_view_ancestors_loop, hv, hany]
        · have hstep1 : get_view_ancestors_loop f (n + 1) pid acc =
              get_view_ancestors_loop f n view.parent_view_id
                (acc ++ [view_pb_without_child_views view]) := by
            simp [get_view_ancestors_loop, hv, hany]
          have hstep2 : get_view_ancestors_loop f (m + 1) pid acc =
              get_view_ancestors_loop f m view.parent_view_id
                (acc ++ [view_pb_without_child_views view]) := by
            simp [get_view_ancestors_loop, hv, hany]
          have hmem : view ∈ f.views := List.mem_of_find?_eq_some hv
          have hnotin : view.id ∉ acc.map ViewPBFlat.id := by
            simp at hany
            rw [List.mem_map]
            rintro ⟨pb, hpb, hid⟩
            exact hany pb hpb hid
          have hdec := freshCount_step f acc view hmem hnotin
          rw [hstep1, hstep2]
          exact ih m view.parent_view_id _
            (Nat.lt_of_lt_of_le hdec (Nat.lt_succ_iff.mp h1))
            (Nat.lt_of_lt_of_le hdec (Nat.lt_succ_iff.mp h2))

/-- With an empty accumulator the fresh count is at most the size of the
node table. -/
theorem freshCount_nil_le (f : Folder) : freshCount f [] ≤ f.views.length := by
  unfold freshCount
  calc ((f.views.map View.id).dedup.filter
          (fun i => !((([] : List ViewPBFlat).map ViewPBFlat.id).contains i))).length
      ≤ (f.views.map View.id).dedup.length := List.length_filter_le _ _
    _ ≤ (f.views.map View.id).length := (List.dedup_sublist _).length_le
    _ = f.views.length := List.length_map _ _

/-- C4: on every folder — cyclic parent links included — the ancestor walk
terminates (its result is the same for the fixed fuel and any larger
fuel), its chain carries no repeated ids, and when the requested view
exists the chain ends at that view. -/
theorem c4_ancestor_walk_cycle_guard (f : Folder) (view_id : String) :
    ((get_view_ancestors_pb (some f) view_id).map ViewPBFlat.id).Nodup ∧
    (∀ extra : Nat,
      get_view_ancestors_loop f (f.views.length + 1 + extra) view_id [] =
        get_view_ancestors_loop f (f.views.length + 1) view_id []) ∧
    (∀ v : View, f.get_view view_id = some v →
      (get_view_ancestors_pb (some f) view_id).getLast? =
        some (view_pb_without_child_views v)) := by
  refine ⟨?_, ?_, ?_⟩
  · show (((get_view_ancestors_loop f (f.views.length + 1) view_id []).reverse).map
      ViewPBFlat.id).Nodup
    rw [List.map_reverse, List.nodup_reverse]
    exact ancestors_loop_nodup f (f.views.length + 1) view_id [] (by simp)
  · intro extra
    apply ancestors_loop_stable
    · exact Nat.lt_of_le_of_lt (freshCount_nil_le f) (by omega)
    · exact Nat.lt_of_le_of_lt (freshCount_nil_le f) (by omega)
  · intro v hv
    have hstep : get_view_ancestors_loop f (f.views.length + 1) view_id [] =
        get_view_ancestors_loop f f.views.length v.parent_view_id
          [view_pb_without_child_views v] := by
      simp [get_view_ancestors_loop, hv]
    obtain ⟨t, ht⟩ := ancestors_loop_prefix f f.views.length v.parent_view_id
      [view_pb_without_child_views v]
    show ((get_view_ancestors_loop f (f.views.length + 1) view_id []).reverse).getLast? =
      some (view_pb_without_child_views v)
    rw [hstep, ht, List.getLast?_reverse]
    rfl

/-- Fixture: a corrupted three-node parent cycle `a → b → c → a`. -/
def fxCycle : Folder :=
  { workspace_id := "w", workspace_children := [],
    views := [mkView "a" "b" [], mkView "b" "c" [], mkView "c" "a" []],
    trash := [], favorites := [], my_privates := [], other_privates := [] }

/-- Witness for C4 on the three-node cycle: the walk stops after `c, b, a`
(no repeats, ending at the requested `a`) and is stable under extra fuel. -/
theorem c4_ancestor_walk_cycle_guard_witness :
    (get_view_ancestors_pb (some fxCycle) "a").map ViewPBFlat.id = ["c", "b", "a"] ∧
    ((get_view_ancestors_pb (some fxCycle) "a").map ViewPBFlat.id).Nodup ∧
    get_view_ancestors_loop fxCycle (fxCycle.views.length + 1 + 5) "a" [] =
      get_view_ancestors_loop fxCycle (fxCycle.views.length + 1) "a" [] ∧
    (get_view_ancestors_pb (some fxCycle) "a").getLast? =
      some (view_pb_without_child_views (mkView "a" "b" [])) := by
  have h := c4_ancestor_walk_cycle_guard fxCycle "a"
  exact ⟨by rfl, h.1, h.2.1 5, h.2.2 (mkView "a" "b" []) (by rfl)⟩
